import Mathlib

/-!
Verification of the MIME part extractor (`decode.py`).

The script walks a parsed MIME message tree and writes each meaningful
node as a file `{count}.{basename}{extension}` in an output directory.
We embed the program shallowly: Python strings become `List Char`,
byte strings become `List Nat`, the output directory becomes a list of
(filename, content) pairs in creation order, and Python exceptions
become an `Option PyErr` component of each result.  The HTML minifier
(`minify_html`, an external library) is a parameter `mh` of the model;
the standard-library `mimetypes` table is modelled from the spec.
-/

namespace Decode

/-- Python `str`, modelled as a list of characters. -/
abbrev Str := List Char

/-- Python `bytes`, modelled as a list of byte values. -/
abbrev Bytes := List Nat

/-- The output directory: files in creation order, name paired with content.
The directory prefix `{path}/` common to every generated name is dropped. -/
abbrev FS := List (Str × Bytes)

/-- The Python exceptions the script can raise. -/
inductive PyErr where
  /-- `AttributeError`: `None.replace(...)` in `rfc2046_boundary_to_windows`. -/
  | attributeError
  /-- `TypeError`: `os.path.splitext(None)` when an attachment has no filename. -/
  | typeError
  /-- `UnicodeDecodeError`: `data.decode('utf-8')` on invalid UTF-8. -/
  | unicodeDecodeError
  /-- an error raised by the external `minify_html.minify`. -/
  | minifyError
  /-- `FileExistsError`: `open(filename, 'xb')` found an existing path. -/
  | fileExistsError
deriving DecidableEq, Repr

/-- `str.replace(a, b)` for single-character `a`, `b`: a character-wise map. -/
def strReplaceChar (a b : Char) (s : Str) : Str :=
  s.map (fun c => if c = a then b else c)

/-- `rfc2046_boundary_to_windows` (decode.py line 23): make a boundary
delimiter windows-safe by `filename.replace(':', '~').replace('?', '$')`. -/
def rfc2046_boundary_to_windows (filename : Str) : Str :=
  strReplaceChar '?' '$' (strReplaceChar ':' '~' filename)

/-- `os.path.splitext` on a plain filename (no path separators, as used at
decode.py line 70): split at the last dot, unless every character before
that dot is itself a dot (leading dots do not start an extension). -/
def splitext (p : Str) : Str × Str :=
  match p.reverse.findIdx? (· = '.') with
  | none => (p, [])
  | some k =>
    let d := p.length - 1 - k
    if (p.take d).any (· ≠ '.') then (p.take d, p.drop d) else (p, [])

/-- A filename matches the counting glob `[0-9].{basename}.*` of
decode.py line 72: one decimal digit, a dot, the literal basename
(`glob.escape`d in the source), a dot, then anything. -/
def countMatch (basename : Str) (name : Str) : Bool :=
  match name with
  | c :: '.' :: rest => c.isDigit && (basename ++ ['.']).isPrefixOf rest
  | _ => false

/-- A filename matches the cleanup glob `[0-9].*.*` of decode.py line 37:
one decimal digit, a dot, then anything containing at least one more dot. -/
def cleanMatch (name : Str) : Bool :=
  match name with
  | c :: '.' :: rest => c.isDigit && rest.contains '.'
  | _ => false

/-- `clean` (decode.py line 29): remove every existing entry matching
`[0-9].*.*` (directory creation is not modelled). -/
def clean (fs : FS) : FS :=
  fs.filter (fun f => !cleanMatch f.1)

/-- Modelled from the spec: the standard `mimetypes` content-type →
extension table (the subset this development touches), plus the explicit
source override `mimetypes.add_type('message/delivery-status', '.eml')`
from decode.py line 14.  Unknown content types yield `none` exactly as
`mimetypes.guess_extension` returns `None`. -/
def guess_extension (ct : Str) : Option Str :=
  if ct = "message/delivery-status".toList then some ".eml".toList
  else if ct = "message/rfc822".toList then some ".eml".toList
  else if ct = "text/plain".toList then some ".txt".toList
  else if ct = "text/html".toList then some ".html".toList
  else if ct = "application/pdf".toList then some ".pdf".toList
  else none

/-- Rendering of a value inside a Python f-string: `None` prints as the
four characters `None`, a present string prints as itself (decode.py
line 73 interpolates `extension`, which may be `None`). -/
def extStr : Option Str → Str
  | none => "None".toList
  | some e => e

/-- One node of the parsed MIME tree, the interface the `email` parser
collaborator provides (spec section 3): content maintype and subtype,
`is_multipart`, the declared boundary parameter (if any), `is_attachment`
and `get_filename()`, the decoded payload (`get_payload(decode=True)`),
the raw serialization (`as_bytes()`), and the child nodes. -/
inductive Node where
  | mk : (maintype subtype : Str) → (multipart : Bool) → (boundary : Option Str) →
         (isAttachment : Bool) → (attFilename : Option Str) →
         (payload : Bytes) → (rawBytes : Bytes) → (children : List Node) → Node

/-- `get_content_maintype()`. -/
def Node.maintype : Node → Str
  | .mk mt _ _ _ _ _ _ _ _ => mt

/-- `get_content_subtype()`. -/
def Node.subtype : Node → Str
  | .mk _ st _ _ _ _ _ _ _ => st

/-- `is_multipart()`. -/
def Node.multipart : Node → Bool
  | .mk _ _ mp _ _ _ _ _ _ => mp

/-- `get_boundary()`: the declared boundary parameter, `None` when absent. -/
def Node.boundary : Node → Option Str
  | .mk _ _ _ bd _ _ _ _ _ => bd

/-- `is_attachment()`. -/
def Node.isAttachment : Node → Bool
  | .mk _ _ _ _ att _ _ _ _ => att

/-- `get_filename()`: the declared attachment filename, `None` when absent. -/
def Node.attFilename : Node → Option Str
  | .mk _ _ _ _ _ an _ _ _ => an

/-- `get_payload(decode=True)` for a non-multipart node. -/
def Node.payload : Node → Bytes
  | .mk _ _ _ _ _ _ pl _ _ => pl

/-- `as_bytes()`: the whole serialized node. -/
def Node.rawBytes : Node → Bytes
  | .mk _ _ _ _ _ _ _ rb _ => rb

/-- `get_payload()` for a multipart node: the list of child nodes. -/
def Node.children : Node → List Node
  | .mk _ _ _ _ _ _ _ _ ch => ch

/-- `get_content_type()`: `maintype/subtype`. -/
def Node.mimeType (n : Node) : Str :=
  n.maintype ++ '/' :: n.subtype

/-- Is `b` a UTF-8 continuation byte `0x80..0xBF`? -/
def isCont (b : Nat) : Bool :=
  0x80 ≤ b && b < 0xC0

/-- `bytes.decode('utf-8')` (decode.py line 53): strict RFC 3629 decoding,
`none` on any invalid sequence (overlong forms, surrogates, out-of-range
code points, stray or missing continuation bytes). -/
def utf8Decode : Bytes → Option (List Char)
  | [] => some []
  | b :: rest =>
    if b < 0x80 then (utf8Decode rest).map (Char.ofNat b :: ·)
    else if b < 0xC2 then none
    else if b < 0xE0 then
      match rest with
      | b1 :: r =>
        if isCont b1 then
          (utf8Decode r).map (Char.ofNat ((b - 0xC0) * 0x40 + (b1 - 0x80)) :: ·)
        else none
      | [] => none
    else if b < 0xF0 then
      match rest with
      | b1 :: b2 :: r =>
        if isCont b1 && isCont b2 then
          let cp := (b - 0xE0) * 0x1000 + (b1 - 0x80) * 0x40 + (b2 - 0x80)
          if 0x800 ≤ cp && !(0xD800 ≤ cp && cp ≤ 0xDFFF) then
            (utf8Decode r).map (Char.ofNat cp :: ·)
          else none
        else none
      | _ => none
    else if b < 0xF5 then
      match rest with
      | b1 :: b2 :: b3 :: r =>
        if isCont b1 && isCont b2 && isCont b3 then
          let cp := (b - 0xF0) * 0x40000 + (b1 - 0x80) * 0x1000 +
                    (b2 - 0x80) * 0x40 + (b3 - 0x80)
          if 0x10000 ≤ cp && cp ≤ 0x10FFFF then
            (utf8Decode r).map (Char.ofNat cp :: ·)
          else none
        else none
      | _ => none
    else none

/-- UTF-8 encoding of one character. -/
def utf8EncodeChar (c : Char) : Bytes :=
  let n := c.toNat
  if n < 0x80 then [n]
  else if n < 0x800 then [0xC0 + n / 0x40, 0x80 + n % 0x40]
  else if n < 0x10000 then
    [0xE0 + n / 0x1000, 0x80 + (n / 0x40) % 0x40, 0x80 + n % 0x40]
  else
    [0xF0 + n / 0x40000, 0x80 + (n / 0x1000) % 0x40,
     0x80 + (n / 0x40) % 0x40, 0x80 + n % 0x40]

/-- `str.encode('utf-8')` (decode.py line 59). -/
def utf8Encode (s : List Char) : Bytes :=
  (s.map utf8EncodeChar).flatten

/-- `get_message_content` (decode.py line 41).  Whole serialization for a
multipart node, decoded payload otherwise; a `text/html` node is decoded
as UTF-8, passed through the external minifier `mh` (a parameter of the
model: `minify_html.minify` is not repository code) and re-encoded.
A decode failure or minifier rejection raises. -/
def get_message_content (mh : List Char → Option (List Char)) (message : Node) :
    Except PyErr Bytes :=
  let data := if message.multipart then message.rawBytes else message.payload
  if message.mimeType = "text/html".toList then
    match utf8Decode data with
    | none => .error .unicodeDecodeError
    | some html =>
      match mh html with
      | none => .error .minifyError
      | some html => .ok (utf8Encode html)
  else .ok data

/-- The sequence number of decode.py line 72:
`len(glob.glob(f'{path}/[0-9].{glob.escape(filename)}.*'))`, the number of
existing entries matching the counting glob for this basename. -/
def allocIndex (fs : FS) (filename : Str) : Nat :=
  (fs.filter (fun f => countMatch filename f.1)).length

/-- The generated part filename of decode.py line 73:
`f'{file_count}.{filename}{extension}'` (the `{path}/` prefix dropped). -/
def allocName (fs : FS) (filename ext : Str) : Str :=
  Nat.toDigits 10 (allocIndex fs filename) ++ '.' :: (filename ++ ext)

/-- `write_message` (decode.py line 63).  Returns the directory after the
call and the exception, if one was raised; on an exception no file is
created.  Order is the source's: sanitize the boundary (raising on
`None`), override name and extension for an attachment, count existing
`[0-9].{filename}.*` entries, render the content, then `open(..., 'xb')`. -/
def write_message (mh : List Char → Option (List Char)) (message : Node)
    (fs : FS) (part_boundary : Option Str) : FS × Option PyErr :=
  let extension := guess_extension message.mimeType
  match part_boundary with
  | none => (fs, some .attributeError)
  | some pb =>
    let filename := rfc2046_boundary_to_windows pb
    let fe : Except PyErr (Str × Str) :=
      if message.isAttachment then
        match message.attFilename with
        | none => .error .typeError
        | some f => .ok (splitext f)
      else .ok (filename, extStr extension)
    match fe with
    | .error e => (fs, some e)
    | .ok (filename, ext) =>
      let name := allocName fs filename ext
      match get_message_content mh message with
      | .error e => (fs, some e)
      | .ok content =>
        if name ∈ fs.map Prod.fst then (fs, some .fileExistsError)
        else (fs ++ [(name, content)], none)

/-- The boundary context passed to the children of a multipart node
(decode.py lines 95-96): the node's own declared boundary when it is
truthy (present and non-empty), else the inherited context. -/
def childCtx (node : Node) (ctx : Option Str) : Option Str :=
  match node.boundary with
  | some b => if b = [] then ctx else some b
  | none => ctx

mutual

/-- `extract_from_message` (decode.py line 80): the recursive tree walker.
A `message/*` node is written whole; a `message/delivery-status` node then
stops; a multipart node recurses into its children with the (possibly
replaced) boundary context; any other node is written as a leaf.  A raised
exception propagates: traversal stops, the directory keeps the files
written so far. -/
def extract_from_message (mh : List Char → Option (List Char)) (node : Node)
    (fs : FS) (ctx : Option Str) : FS × Option PyErr :=
  match node with
  | .mk mt st mp bd att an pl rb ch =>
    let n := Node.mk mt st mp bd att an pl rb ch
    if mt = "message".toList then
      match write_message mh n fs ctx with
      | (fs1, some e) => (fs1, some e)
      | (fs1, none) =>
        if st = "delivery-status".toList then (fs1, none)
        else if mp then extract_list mh ch fs1 (childCtx n ctx)
        else write_message mh n fs1 ctx
    else if mp then extract_list mh ch fs (childCtx n ctx)
    else write_message mh n fs ctx

/-- `for part in message.get_payload(): extract_from_message(part, ...)`
(decode.py lines 97-98), with exception propagation. -/
def extract_list (mh : List Char → Option (List Char)) (nodes : List Node)
    (fs : FS) (ctx : Option Str) : FS × Option PyErr :=
  match nodes with
  | [] => (fs, none)
  | n :: rest =>
    match extract_from_message mh n fs ctx with
    | (fs1, some e) => (fs1, some e)
    | (fs1, none) => extract_list mh rest fs1 ctx

end

/-- `extract_from_file` (decode.py line 103), minus the file IO: the root
call passes the default boundary context `None`. -/
def extract_from_file (mh : List Char → Option (List Char)) (node : Node)
    (fs : FS) : FS × Option PyErr :=
  extract_from_message mh node fs none

/-! ## Helper lemmas -/

/-- The character-wise effect of the sanitizer. -/
def sanitizeChar (c : Char) : Char :=
  if c = ':' then '~' else if c = '?' then '$' else c

/-- The two sequential `str.replace` calls amount to one character-wise map. -/
theorem sanitize_map (s : Str) : rfc2046_boundary_to_windows s = s.map sanitizeChar := by
  induction s with
  | nil => rfl
  | cons c t ih =>
    simp only [rfc2046_boundary_to_windows, strReplaceChar, List.map_cons] at *
    refine congrArg₂ _ ?_ ih
    by_cases h1 : c = ':'
    · subst h1; rfl
    · by_cases h2 : c = '?' <;> simp [sanitizeChar, h1, h2]

/-- The sanitizer is idempotent. -/
theorem sanitize_idem (s : Str) :
    rfc2046_boundary_to_windows (rfc2046_boundary_to_windows s) =
      rfc2046_boundary_to_windows s := by
  simp only [sanitize_map, List.map_map]
  refine List.map_congr_left (fun c _ => ?_)
  by_cases h1 : c = ':'
  · subst h1; rfl
  · by_cases h2 : c = '?' <;> simp [sanitizeChar, Function.comp, h1, h2]

/-- A successful non-attachment write: the boundary context is sanitized
in full and used as the basename, the sequence number is the count of
matching entries, and exactly the rendered content is appended. -/
theorem write_message_nonatt (mh : List Char → Option (List Char)) (n : Node)
    (fs : FS) (b : Str) (cont : Bytes)
    (hatt : n.isAttachment = false)
    (hrender : get_message_content mh n = .ok cont)
    (hfree : allocName fs (rfc2046_boundary_to_windows b)
        (extStr (guess_extension n.mimeType)) ∉ fs.map Prod.fst) :
    write_message mh n fs (some b) =
      (fs ++ [(allocName fs (rfc2046_boundary_to_windows b)
          (extStr (guess_extension n.mimeType)), cont)], none) := by
  simp [write_message, hatt, hrender, hfree]

/-- A successful attachment write: basename and extension come from
`os.path.splitext` of the declared attachment filename; the content-type
extension plays no role. -/
theorem write_message_att (mh : List Char → Option (List Char)) (n : Node)
    (fs : FS) (b : Str) (F : Str) (cont : Bytes)
    (hatt : n.isAttachment = true)
    (hF : n.attFilename = some F)
    (hrender : get_message_content mh n = .ok cont)
    (hfree : allocName fs (splitext F).1 (splitext F).2 ∉ fs.map Prod.fst) :
    write_message mh n fs (some b) =
      (fs ++ [(allocName fs (splitext F).1 (splitext F).2, cont)], none) := by
  simp [write_message, hatt, hF, hrender, hfree]

/-- On a non-message leaf the walker is exactly one part write. -/
theorem extract_leaf (mh : List Char → Option (List Char)) (n : Node)
    (fs : FS) (ctx : Option Str)
    (hmt : n.maintype ≠ "message".toList) (hmp : n.multipart = false) :
    extract_from_message mh n fs ctx = write_message mh n fs ctx := by
  cases n with
  | mk mt st mp bd att an pl rb ch =>
    simp only [Node.maintype] at hmt
    simp only [Node.multipart] at hmp
    subst hmp
    simp only [extract_from_message]
    rw [if_neg hmt, if_neg (by simp)]

/-- On a `message/*` node whose subtype is `delivery-status` the walker is
exactly one part write: it never recurses, whatever the children are. -/
theorem extract_ds (mh : List Char → Option (List Char)) (n : Node)
    (fs : FS) (ctx : Option Str)
    (hmt : n.maintype = "message".toList)
    (hst : n.subtype = "delivery-status".toList) :
    extract_from_message mh n fs ctx = write_message mh n fs ctx := by
  cases n with
  | mk mt st mp bd att an pl rb ch =>
    simp only [Node.maintype] at hmt
    simp only [Node.subtype] at hst
    subst hmt; subst hst
    simp only [extract_from_message, if_true]
    rcases hw : write_message mh (Node.mk "message".toList "delivery-status".toList
        mp bd att an pl rb ch) fs ctx with ⟨fs1, e1⟩
    cases e1 <;> simp

/-- On a `message/*` node with any other subtype that is multipart, a
successful whole-node write is followed by recursion into the children
with the (possibly replaced) boundary context. -/
theorem extract_msg_recurse (mh : List Char → Option (List Char)) (n : Node)
    (fs fs1 : FS) (ctx : Option Str)
    (hmt : n.maintype = "message".toList)
    (hst : n.subtype ≠ "delivery-status".toList)
    (hmp : n.multipart = true)
    (hw : write_message mh n fs ctx = (fs1, none)) :
    extract_from_message mh n fs ctx =
      extract_list mh n.children fs1 (childCtx n ctx) := by
  cases n with
  | mk mt st mp bd att an pl rb ch =>
    simp only [Node.maintype] at hmt
    simp only [Node.subtype] at hst
    simp only [Node.multipart] at hmp
    subst hmt; subst hmp
    simp only [extract_from_message, if_true]
    rw [hw]
    simp [Node.children, hst]
    intro h
    exact absurd h (by simpa using hst)

/-- `write_message` only ever appends to the directory. -/
theorem write_fst_append (mh : List Char → Option (List Char)) (n : Node)
    (fs : FS) (ctx : Option Str) :
    ∃ w, (write_message mh n fs ctx).1 = fs ++ w := by
  unfold write_message
  rcases ctx with _ | pb
  · exact ⟨[], by simp⟩
  · simp only
    split
    · exact ⟨[], by simp⟩
    · split
      · exact ⟨[], by simp⟩
      · split
        · exact ⟨[], by simp⟩
        · exact ⟨_, rfl⟩

/-- The walker only ever appends to the directory (both components of the
mutual recursion, by strong induction on the node size). -/
theorem extract_fst_append_aux (mh : List Char → Option (List Char)) :
    ∀ k : Nat,
      (∀ n : Node, sizeOf n ≤ k → ∀ fs ctx,
        ∃ w, (extract_from_message mh n fs ctx).1 = fs ++ w) ∧
      (∀ ns : List Node, sizeOf ns ≤ k → ∀ fs ctx,
        ∃ w, (extract_list mh ns fs ctx).1 = fs ++ w) := by
  intro k
  induction k using Nat.strong_induction_on with
  | _ k ih =>
    constructor
    · intro n hn fs ctx
      cases n with
      | mk mt st mp bd att an pl rb ch =>
        have hch : sizeOf ch < k := by
          have hlt : sizeOf ch < sizeOf (Node.mk mt st mp bd att an pl rb ch) := by
            simp
          omega
        simp only [extract_from_message]
        split
        · split
          · rename_i fs1 e heq
            obtain ⟨w1, hw1⟩ := write_fst_append mh _ fs ctx
            rw [heq] at hw1
            exact ⟨w1, hw1⟩
          · rename_i fs1 heq
            obtain ⟨w1, hw1⟩ := write_fst_append mh _ fs ctx
            rw [heq] at hw1
            simp only at hw1
            split
            · exact ⟨w1, hw1⟩
            · split
              · obtain ⟨w2, hw2⟩ := (ih (sizeOf ch) hch).2 ch le_rfl fs1 _
                exact ⟨w1 ++ w2, by rw [hw2, hw1, List.append_assoc]⟩
              · obtain ⟨w2, hw2⟩ := write_fst_append mh _ fs1 ctx
                exact ⟨w1 ++ w2, by rw [hw2, hw1, List.append_assoc]⟩
        · split
          · exact (ih (sizeOf ch) hch).2 ch le_rfl fs _
          · exact write_fst_append mh _ fs ctx
    · intro ns hns fs ctx
      cases ns with
      | nil => exact ⟨[], by simp [extract_list]⟩
      | cons n rest =>
        have hsz : sizeOf (n :: rest) = 1 + sizeOf n + sizeOf rest := by simp
        have h1 : sizeOf n < k := by omega
        have h2 : sizeOf rest < k := by omega
        simp only [extract_list]
        split
        · rename_i fs1 e heq
          obtain ⟨w1, hw1⟩ := (ih (sizeOf n) h1).1 n le_rfl fs ctx
          rw [heq] at hw1
          exact ⟨w1, hw1⟩
        · rename_i fs1 heq
          obtain ⟨w1, hw1⟩ := (ih (sizeOf n) h1).1 n le_rfl fs ctx
          rw [heq] at hw1
          simp only at hw1
          obtain ⟨w2, hw2⟩ := (ih (sizeOf rest) h2).2 rest le_rfl fs1 ctx
          exact ⟨w1 ++ w2, by rw [hw2, hw1, List.append_assoc]⟩

/-- The walker only ever appends to the directory. -/
theorem extract_fst_append (mh : List Char → Option (List Char)) (n : Node)
    (fs : FS) (ctx : Option Str) :
    ∃ w, (extract_from_message mh n fs ctx).1 = fs ++ w :=
  (extract_fst_append_aux mh (sizeOf n)).1 n le_rfl fs ctx

/-- The cleaner distributes over concatenation. -/
theorem clean_append (a b : FS) : clean (a ++ b) = clean a ++ clean b := by
  simp [clean]

/-- The cleaner is idempotent. -/
theorem clean_idem (fs : FS) : clean (clean fs) = clean fs := by
  simp [clean, List.filter_filter]

/-- A `message` maintype forces a content type different from `text/html`. -/
theorem mimeType_msg_ne_html (n : Node) (hmt : n.maintype = "message".toList) :
    n.mimeType ≠ "text/html".toList := by
  intro hcontra
  rw [Node.mimeType, hmt] at hcontra
  simp at hcontra

/-- Rendering a multipart `message/*` node yields its whole serialization. -/
theorem render_message_multipart (mh : List Char → Option (List Char)) (n : Node)
    (hmt : n.maintype = "message".toList) (hmp : n.multipart = true) :
    get_message_content mh n = .ok n.rawBytes := by
  simp [get_message_content, hmp]
  intro h
  exact absurd h (by simpa using mimeType_msg_ne_html n hmt)

/-! ## Concrete fixtures

A trivial minifier instance is fixed for the concrete runs below; none of
the concrete trees contains a `text/html` part, so the minifier is never
invoked and these results do not depend on the choice. -/

/-- The identity minifier used to instantiate the `mh` parameter. -/
def mhId : List Char → Option (List Char) := fun s => some s

/-- A `text/plain` leaf with the given decoded payload. -/
def leafTxt (pl : Bytes) : Node :=
  .mk "text".toList "plain".toList false none false none pl [] []

/-- A leaf whose content type is unknown to the extension table, so
`guess_extension` yields `none` and the f-string renders it as `None`. -/
def leafFoo (pl : Bytes) : Node :=
  .mk "application".toList "x-foo".toList false none false none pl [] []

/-- A `multipart/mixed` container with the given boundary parameter. -/
def mixed (b : Option Str) (ch : List Node) : Node :=
  .mk "multipart".toList "mixed".toList true b false none [] [] ch

/-! ## Claim C9 -/

/-- C9: `sanitize` replaces every `:` with `~` and every `?` with `$`,
leaves every other character unchanged, maps the spec's example boundary
to its expected sanitized form, and is idempotent. -/
theorem c9_sanitize_charwise_and_idempotent :
    (∀ s : Str, rfc2046_boundary_to_windows s =
      s.map (fun c => if c = ':' then '~' else if c = '?' then '$' else c)) ∧
    (∀ s : Str, rfc2046_boundary_to_windows (rfc2046_boundary_to_windows s) =
      rfc2046_boundary_to_windows s) ∧
    rfc2046_boundary_to_windows "----=_Part_0:Ab?cd".toList =
      "----=_Part_0~Ab$cd".toList := by
  refine ⟨fun s => (sanitize_map s).trans ?_, sanitize_idem, by decide⟩
  simp [sanitizeChar]

/-! ## Claim C1 -/

/-- C1 fails on the code: for the leaf written with boundary context
`bnd` the created file is `0.bnd.txt` — the sanitized boundary is used in
full — whereas the claim's formula (strip the first two characters of the
sanitized boundary) predicts `0.d.txt`, a different name. -/
theorem c1_counterexample :
    (write_message mhId (leafTxt [7]) [] (some "bnd".toList)).1.map Prod.fst =
      ["0.bnd.txt".toList] ∧
    "0.bnd.txt".toList ≠
      Nat.toDigits 10 0 ++
        '.' :: ((rfc2046_boundary_to_windows "bnd".toList).drop 2 ++ ".txt".toList) := by
  decide

/-- C1 amended: for a non-attachment part written with boundary context
`b`, the base filename is the sanitized boundary string in full — no
leading characters are stripped — and the file is
`{index}.{sanitize(b)}{extension}`. -/
theorem c1_basename_is_full_sanitized_boundary (mh : List Char → Option (List Char))
    (n : Node) (fs : FS) (b : Str) (cont : Bytes)
    (hatt : n.isAttachment = false)
    (hrender : get_message_content mh n = .ok cont)
    (hfree : allocName fs (rfc2046_boundary_to_windows b)
        (extStr (guess_extension n.mimeType)) ∉ fs.map Prod.fst) :
    write_message mh n fs (some b) =
      (fs ++ [(Nat.toDigits 10 (allocIndex fs (rfc2046_boundary_to_windows b)) ++
          '.' :: (rfc2046_boundary_to_windows b ++ extStr (guess_extension n.mimeType)),
        cont)], none) :=
  write_message_nonatt mh n fs b cont hatt hrender hfree

/-- Witness for the amended C1 at a concrete input. -/
theorem c1_basename_is_full_sanitized_boundary_witness :
    write_message mhId (leafTxt [7]) [] (some "bnd".toList) =
      ([("0.bnd.txt".toList, [7])], none) := by
  have h := c1_basename_is_full_sanitized_boundary mhId (leafTxt [7]) []
    "bnd".toList [7] rfl rfl (by decide)
  exact h.trans (by decide)

/-! ## Claim C7 -/

/-- C7: an attachment with declared filename `F` is written as
`{n}.{base of F}{extension of F}`; the content-type-derived extension
does not occur in the name, and `splitext` preserves the case of both
base and extension, as on the spec's example `report.PDF`. -/
theorem c7_attachment_name_precedence (mh : List Char → Option (List Char))
    (n : Node) (fs : FS) (b : Str) (F : Str) (cont : Bytes)
    (hatt : n.isAttachment = true)
    (hF : n.attFilename = some F)
    (hrender : get_message_content mh n = .ok cont)
    (hfree : allocName fs (splitext F).1 (splitext F).2 ∉ fs.map Prod.fst) :
    write_message mh n fs (some b) =
      (fs ++ [(Nat.toDigits 10 (allocIndex fs (splitext F).1) ++
          '.' :: ((splitext F).1 ++ (splitext F).2), cont)], none) ∧
    splitext "report.PDF".toList = ("report".toList, ".PDF".toList) :=
  ⟨write_message_att mh n fs b F cont hatt hF hrender hfree, by decide⟩

/-- Witness for C7: a PDF attachment declared `report.PDF` in a
`text/plain`-typed node still produces `0.report.PDF`. -/
theorem c7_attachment_name_precedence_witness :
    write_message mhId
      (.mk "text".toList "plain".toList false none true (some "report.PDF".toList)
        [3] [] []) [] (some "zz".toList) =
      ([("0.report.PDF".toList, [3])], none) := by
  have h := (c7_attachment_name_precedence mhId
    (.mk "text".toList "plain".toList false none true (some "report.PDF".toList)
      [3] [] []) [] "zz".toList "report.PDF".toList [3] rfl rfl rfl (by decide)).1
  exact h.trans (by decide)

/-! ## Claim C10 -/

/-- C10: when the walker reaches a non-attachment leaf while the boundary
context is still the initial `None` — for instance a root message that is
itself a non-multipart, non-message leaf — the sanitizer is applied to the
absent boundary and the run raises `AttributeError`; no file is written. -/
theorem c10_none_boundary_raises (mh : List Char → Option (List Char))
    (n : Node) (fs : FS)
    (hmt : n.maintype ≠ "message".toList)
    (hmp : n.multipart = false)
    (_hatt : n.isAttachment = false) :
    extract_from_file mh n fs = (fs, some .attributeError) := by
  rw [extract_from_file, extract_leaf mh n fs none hmt hmp]
  rfl

/-- Witness for C10 at a concrete `text/plain` root leaf. -/
theorem c10_none_boundary_raises_witness :
    extract_from_file mhId (leafTxt [1]) [] = ([], some PyErr.attributeError) :=
  c10_none_boundary_raises mhId (leafTxt [1]) [] (by decide) rfl rfl

/-! ## Claim C4 -/

/-- C4: a `message/delivery-status` node that reports itself as multipart
with any number `N ≥ 1` of sub-groups produces exactly one output file —
the whole-message blob `rawBytes` — and the walker never recurses into
the sub-groups: the result does not depend on the children at all. -/
theorem c4_delivery_status_single_file (mh : List Char → Option (List Char))
    (n : Node) (fs : FS) (b : Str)
    (hmt : n.maintype = "message".toList)
    (hst : n.subtype = "delivery-status".toList)
    (hmp : n.multipart = true)
    (hatt : n.isAttachment = false)
    (_hN : 1 ≤ n.children.length)
    (hfree : allocName fs (rfc2046_boundary_to_windows b) ".eml".toList
      ∉ fs.map Prod.fst) :
    extract_from_message mh n fs (some b) =
      (fs ++ [(allocName fs (rfc2046_boundary_to_windows b) ".eml".toList,
        n.rawBytes)], none) := by
  have hext : guess_extension n.mimeType = some ".eml".toList := by
    rw [Node.mimeType, hmt, hst]
    decide
  have hextStr : extStr (guess_extension n.mimeType) = ".eml".toList := by
    rw [hext]
    rfl
  have hfree' : allocName fs (rfc2046_boundary_to_windows b)
      (extStr (guess_extension n.mimeType)) ∉ fs.map Prod.fst := by
    rw [hextStr]; exact hfree
  rw [extract_ds mh n fs (some b) hmt hst,
    write_message_nonatt mh n fs b n.rawBytes hatt
      (render_message_multipart mh n hmt hmp) hfree', hextStr]

/-- Witness for C4: a delivery-status node with 3 sub-groups yields the
single file `0.bb.eml` holding the whole serialized message. -/
theorem c4_delivery_status_single_file_witness :
    extract_from_message mhId
      (.mk "message".toList "delivery-status".toList true none false none
        [] [5, 6] [leafTxt [1], leafTxt [2], leafTxt [3]]) [] (some "bb".toList) =
      ([("0.bb.eml".toList, [5, 6])], none) := by
  have h := c4_delivery_status_single_file mhId
    (.mk "message".toList "delivery-status".toList true none false none
      [] [5, 6] [leafTxt [1], leafTxt [2], leafTxt [3]]) [] "bb".toList
    rfl rfl rfl rfl (by decide) (by decide)
  exact h.trans (by decide)

/-! ## Claim C5 -/

/-- C5: a `message/*` node of any subtype other than `delivery-status`
that is multipart internally is first written whole (the serialized blob
`rawBytes`) and the walker then recurses into its children with the
possibly-replaced boundary context, so the blob and the decoded sub-parts
are all emitted. -/
theorem c5_message_blob_then_recurse (mh : List Char → Option (List Char))
    (n : Node) (fs : FS) (b : Str)
    (hmt : n.maintype = "message".toList)
    (hst : n.subtype ≠ "delivery-status".toList)
    (hmp : n.multipart = true)
    (hatt : n.isAttachment = false)
    (hfree : allocName fs (rfc2046_boundary_to_windows b)
        (extStr (guess_extension n.mimeType)) ∉ fs.map Prod.fst) :
    extract_from_message mh n fs (some b) =
      extract_list mh n.children
        (fs ++ [(allocName fs (rfc2046_boundary_to_windows b)
            (extStr (guess_extension n.mimeType)), n.rawBytes)])
        (childCtx n (some b)) :=
  extract_msg_recurse mh n fs _ (some b) hmt hst hmp
    (write_message_nonatt mh n fs b n.rawBytes hatt
      (render_message_multipart mh n hmt hmp) hfree)

/-- Witness for C5: a `message/rfc822` node holding one `text/plain` leaf
emits the whole-message blob `0.bb.eml` and then the decoded leaf
`1.bb.txt`. -/
theorem c5_message_blob_then_recurse_witness :
    extract_from_message mhId
      (.mk "message".toList "rfc822".toList true none false none
        [] [7] [leafTxt [3]]) [] (some "bb".toList) =
      ([("0.bb.eml".toList, [7]), ("1.bb.txt".toList, [3])], none) := by
  have h := c5_message_blob_then_recurse mhId
    (.mk "message".toList "rfc822".toList true none false none [] [7] [leafTxt [3]])
    [] "bb".toList rfl (by decide) rfl rfl (by decide)
  exact h.trans (by decide)

/-! ## Claim C8 -/

/-- The spec's boundary-inheritance scenario: a multipart with boundary
`bone` containing a first-level leaf, a nested multipart with boundary
`btwo` holding a leaf, and a boundary-less sibling multipart holding a
leaf. -/
def nestedTree (pA pB pC : Bytes) : Node :=
  mixed (some "bone".toList)
    [leafTxt pA,
     mixed (some "btwo".toList) [leafTxt pB],
     mixed none [leafTxt pC]]

/-- C8: boundary context is inherited downward and replaced only for the
declaring node's own children: the first-level leaf is named from `bone`,
the leaf under the nested multipart from `btwo`, and the leaf of the
boundary-less sibling subtree again from `bone` — the nested node's
boundary is propagated neither back up nor sideways. -/
theorem c8_boundary_inheritance :
    extract_from_message mhId (nestedTree [1] [2] [3]) [] none =
      ([("0.bone.txt".toList, [1]),
        ("0.btwo.txt".toList, [2]),
        ("1.bone.txt".toList, [3])], none) := by
  decide

/-! ## Claim C6 -/

/-- A multipart whose boundary is the literal `payload`, holding three
`text/plain` leaves: its leaves are written with base name `payload`. -/
def payloadTree : Node :=
  mixed (some "payload".toList) [leafTxt [1], leafTxt [2], leafTxt [3]]

/-- C6: the sequence number of a write is the count of existing entries
matching "digit, `.`, the exact basename, `.`, anything"; three leaf
parts with base name `payload` written into a directory with no prior
files get indices 0, 1, 2 in visitation order; and an unrelated file
`notes.txt` matches no basename's counting pattern, so its presence
changes none of the generated names. -/
theorem c6_allocator_numbering (mh : List Char → Option (List Char))
    (n : Node) (fs : FS) (b : Str) (cont : Bytes)
    (hatt : n.isAttachment = false)
    (hrender : get_message_content mh n = .ok cont)
    (hfree : allocName fs (rfc2046_boundary_to_windows b)
        (extStr (guess_extension n.mimeType)) ∉ fs.map Prod.fst) :
    (write_message mh n fs (some b) =
      (fs ++ [(Nat.toDigits 10
          ((fs.filter (fun f => countMatch (rfc2046_boundary_to_windows b) f.1)).length)
          ++ '.' :: (rfc2046_boundary_to_windows b ++ extStr (guess_extension n.mimeType)),
        cont)], none)) ∧
    ((extract_from_message mhId payloadTree [] none).1.map Prod.fst =
      ["0.payload.txt".toList, "1.payload.txt".toList, "2.payload.txt".toList]) ∧
    (∀ base : Str, countMatch base "notes.txt".toList = false) ∧
    ((extract_from_message mhId payloadTree [("notes.txt".toList, [9])] none).1.map
        Prod.fst =
      ["notes.txt".toList, "0.payload.txt".toList, "1.payload.txt".toList,
       "2.payload.txt".toList]) := by
  refine ⟨?_, by decide, fun base => rfl, by decide⟩
  simpa [allocName, allocIndex] using
    write_message_nonatt mh n fs b cont hatt hrender hfree

/-- Witness for C6 at a concrete input. -/
theorem c6_allocator_numbering_witness :
    write_message mhId (leafTxt [1]) [] (some "payload".toList) =
      ([("0.payload.txt".toList, [1])], none) := by
  have h := (c6_allocator_numbering mhId (leafTxt [1]) [] "payload".toList [1]
    rfl rfl (by decide)).1
  exact h.trans (by decide)

/-! ## Claim C2 -/

/-- The stale-file scenario: a part of unknown content type gets the
extension text `None` and a name the cleanup glob does not match. -/
def staleTree : Node := mixed (some "b".toList) [leafFoo [1], leafTxt [2]]

/-- C2 fails on the code: running extraction twice with the Cleaner
before each run is not byte-identical for every input.  The first run
writes `0.bNone` (unknown content type, extension `None`, only one dot)
and `0.b.txt`; the Cleaner before the second run removes only `0.b.txt`,
and the second run then aborts on an exclusive-create collision with the
surviving `0.bNone`, leaving a directory missing `0.b.txt`. -/
theorem c2_counterexample :
    extract_from_file mhId staleTree (clean []) =
      ([("0.bNone".toList, [1]), ("0.b.txt".toList, [2])], none) ∧
    extract_from_file mhId staleTree
        (clean [("0.bNone".toList, [1]), ("0.b.txt".toList, [2])]) =
      ([("0.bNone".toList, [1])], some .fileExistsError) ∧
    ([("0.bNone".toList, [1])] : FS) ≠
      [("0.bNone".toList, [1]), ("0.b.txt".toList, [2])] := by
  refine ⟨by decide, by decide, by decide⟩

/-- C2 amended: extraction is idempotent provided every file the run
creates matches the Cleaner's pattern `[0-9].*.*` (single-digit index and
at least one further dot in `{basename}{extension}`): if the first run
(after cleaning) succeeds and all its new files match, cleaning again
removes exactly those files and the second run reproduces the identical
directory. -/
theorem c2_idempotent_when_cleanable (mh : List Char → Option (List Char))
    (n : Node) (fs fs2 : FS)
    (h1 : extract_from_file mh n (clean fs) = (fs2, none))
    (h2 : ∀ f ∈ fs2.drop (clean fs).length, cleanMatch f.1 = true) :
    extract_from_file mh n (clean fs2) = (fs2, none) := by
  obtain ⟨w, hw⟩ := extract_fst_append mh n (clean fs) none
  rw [extract_from_file] at h1
  rw [h1] at hw
  simp only at hw
  have h2' : ∀ f ∈ w, cleanMatch f.1 = true := by
    intro f hf
    refine h2 f ?_
    rw [hw]
    simpa using hf
  have hcw : clean w = [] := by
    rw [clean, List.filter_eq_nil_iff]
    intro f hf
    simp [h2' f hf]
  have hclean2 : clean fs2 = clean fs := by
    rw [hw, clean_append, clean_idem, hcw, List.append_nil]
  rw [extract_from_file, hclean2]
  exact h1

/-- A two-leaf tree whose generated names all match the cleanup glob. -/
def twoLeafTree : Node := mixed (some "bnd".toList) [leafTxt [1], leafTxt [2]]

/-- Witness for the amended C2: a second cleaned run on `twoLeafTree`
reproduces the identical directory. -/
theorem c2_idempotent_when_cleanable_witness :
    extract_from_file mhId twoLeafTree
        (clean [("0.bnd.txt".toList, [1]), ("1.bnd.txt".toList, [2])]) =
      ([("0.bnd.txt".toList, [1]), ("1.bnd.txt".toList, [2])], none) :=
  c2_idempotent_when_cleanable mhId twoLeafTree []
    [("0.bnd.txt".toList, [1]), ("1.bnd.txt".toList, [2])]
    (by decide) (by decide)

/-! ## Claim C3 -/

/-- C3 amended: when writing one part raises (a render failure or an
exclusive-create collision), the exception propagates out of the walker
and aborts the whole run for that message: the not-yet-visited siblings
are never written, and the directory keeps exactly the files written
before the failure. -/
theorem c3_error_aborts_run (mh : List Char → Option (List Char))
    (parent : Node) (fs fs1 : FS) (ctx : Option Str)
    (child : Node) (rest : List Node) (e : PyErr)
    (hch : parent.children = child :: rest)
    (hmt : parent.maintype ≠ "message".toList)
    (hmp : parent.multipart = true)
    (hfail : extract_from_message mh child fs (childCtx parent ctx) = (fs1, some e)) :
    extract_from_message mh parent fs ctx = (fs1, some e) := by
  cases parent with
  | mk mt st mp bd att an pl rb ch =>
    simp only [Node.maintype] at hmt
    simp only [Node.multipart] at hmp
    simp only [Node.children] at hch
    subst hmp; subst hch
    simp only [extract_from_message]
    rw [if_neg hmt]
    simp only [if_true]
    simp only [extract_list]
    rw [hfail]

/-- C3 fails on the code: with a pre-existing `1.bnd.txt` the first leaf
collides (its computed index is 1), the run aborts with
`FileExistsError`, and the sibling leaf (payload `[5]`) is not written —
no file with its content exists afterwards. -/
theorem c3_counterexample :
    extract_from_message mhId (mixed (some "bnd".toList) [leafTxt [4], leafTxt [5]])
        [("1.bnd.txt".toList, [9])] none =
      ([("1.bnd.txt".toList, [9])], some .fileExistsError) ∧
    ∀ f ∈ ([("1.bnd.txt".toList, [9])] : FS), f.2 ≠ [5] := by
  refine ⟨by decide, by decide⟩

/-- Witness for the amended C3 at the concrete collision scenario. -/
theorem c3_error_aborts_run_witness :
    extract_from_message mhId (mixed (some "bnd".toList) [leafTxt [4], leafTxt [5]])
        [("1.bnd.txt".toList, [9])] none =
      ([("1.bnd.txt".toList, [9])], some PyErr.fileExistsError) :=
  c3_error_aborts_run mhId
    (mixed (some "bnd".toList) [leafTxt [4], leafTxt [5]])
    [("1.bnd.txt".toList, [9])] [("1.bnd.txt".toList, [9])] none
    (leafTxt [4]) [leafTxt [5]] PyErr.fileExistsError
    rfl (by decide) rfl (by decide)

end Decode
